import Mathlib

/-!
Shallow embedding of `src/consensus/client.js` of the flowchain-node
repository: the Stratum bridge client core (work state store, stream
reframer, virtual block aggregator, connection start-up and the
submission broadcaster), together with the pieces of the JavaScript
runtime the file relies on (JSON values, `JSON.stringify`, `JSON.parse`,
property access, array index assignment).

JavaScript values are modelled by the inductive type `JSVal`; `undefined`
is a value of its own (`JSVal.undefined`).  Property reads that throw a
`TypeError` in JavaScript (reads on `null`/`undefined`) are modelled with
`Except Unit`; state-transforming handlers thread the global state
explicitly.
-/

/-- JSON-ish JavaScript values: `undefined`, `null`, booleans, (integer)
numbers, strings, arrays and objects (ordered field lists, as JS objects
preserve insertion order for string keys). -/
inductive JSVal where
  | undefined : JSVal
  | jnull : JSVal
  | jbool : Bool → JSVal
  | jnum : Int → JSVal
  | jstr : String → JSVal
  | jarr : List JSVal → JSVal
  | jobj : List (String × JSVal) → JSVal

/-- JS truthiness: `undefined`, `null`, `false`, `0` and the empty string
are falsy; every array and object is truthy. -/
def JSVal.truthy : JSVal → Bool
  | .undefined => false
  | .jnull => false
  | .jbool b => b
  | .jnum n => n != 0
  | .jstr s => s != ""
  | .jarr _ => true
  | .jobj _ => true

/-- `typeof v === 'object'`: true for `null`, arrays and objects. -/
def JSVal.typeofObject : JSVal → Bool
  | .jnull => true
  | .jarr _ => true
  | .jobj _ => true
  | _ => false

/-- First binding of a key in an ordered field list. -/
def lookupField : List (String × JSVal) → String → Option JSVal
  | [], _ => none
  | (k, v) :: fs, key => if k = key then some v else lookupField fs key

/-- JS property read `o.k` on receivers on which it cannot throw:
objects yield the field (or `undefined`), arrays expose `length`, and
reads on other primitives yield `undefined`. -/
def JSVal.getF : JSVal → String → JSVal
  | .jobj fs, key => (lookupField fs key).getD .undefined
  | .jarr xs, key => if key = "length" then .jnum (xs.length : Int) else .undefined
  | _, _ => .undefined

/-- JS property read `o.k`, including the `TypeError` thrown when the
receiver is `null` or `undefined`. -/
def JSVal.getProp : JSVal → String → Except Unit JSVal
  | .undefined, _ => .error ()
  | .jnull, _ => .error ()
  | v, key => .ok (v.getF key)

/-- Decimal digit characters of a natural number, most significant first
(empty for 0; `natRepr` below adds the `'0'`). -/
def digitChar : Nat → Char
  | 0 => '0'
  | 1 => '1'
  | 2 => '2'
  | 3 => '3'
  | 4 => '4'
  | 5 => '5'
  | 6 => '6'
  | 7 => '7'
  | 8 => '8'
  | _ => '9'

def natDigsAux : Nat → Nat → List Char
  | 0, _ => []
  | fu + 1, n => if n = 0 then [] else natDigsAux fu (n / 10) ++ [digitChar (n % 10)]

def natDigs (n : Nat) : List Char := natDigsAux n n

/-- Decimal rendering of a natural number. -/
def natRepr (n : Nat) : List Char :=
  if n = 0 then ['0'] else natDigs n

/-- Decimal rendering of an integer (used by `JSON.stringify` on numbers). -/
def intRepr : Int → List Char
  | .ofNat m => natRepr m
  | .negSucc m => '-' :: natRepr (m + 1)

/-- JS numeric index read `o[i]`, including the `TypeError` on
`null`/`undefined` receivers; arrays yield the element or `undefined`,
objects look the decimal key up. -/
def JSVal.idx : JSVal → Nat → Except Unit JSVal
  | .undefined, _ => .error ()
  | .jnull, _ => .error ()
  | .jarr xs, i => .ok (xs.getD i .undefined)
  | .jobj fs, i => .ok ((lookupField fs (String.mk (natRepr i))).getD .undefined)
  | _, _ => .ok .undefined

/-- JS property assignment on an object: overwrite in place (insertion
order is preserved), append when the key is new. -/
def setAssoc : List (String × JSVal) → String → JSVal → List (String × JSVal)
  | [], key, v => [(key, v)]
  | (k, w) :: fs, key, v => if k = key then (key, v) :: fs else (k, w) :: setAssoc fs key v

/-- `JSON.stringify` string escaping, restricted to the two characters a
quoted JSON string cannot hold verbatim (control characters are left
unescaped; the inputs of this development never contain them). -/
def escapeStr : List Char → List Char
  | [] => []
  | c :: cs => (if c = '"' ∨ c = '\\' then ['\\', c] else [c]) ++ escapeStr cs

mutual

/-- `JSON.stringify` (no spacing), as the characters it emits.
`undefined` never reaches serialization on the modelled paths. -/
def stringifyV : JSVal → List Char
  | .undefined => ['n', 'u', 'l', 'l']
  | .jnull => ['n', 'u', 'l', 'l']
  | .jbool true => ['t', 'r', 'u', 'e']
  | .jbool false => ['f', 'a', 'l', 's', 'e']
  | .jnum n => intRepr n
  | .jstr s => '"' :: (escapeStr s.data ++ ['"'])
  | .jarr xs => '[' :: (stringifyElems xs ++ [']'])
  | .jobj fs => '{' :: (stringifyFields fs ++ ['}'])

def stringifyElems : List JSVal → List Char
  | [] => []
  | [x] => stringifyV x
  | x :: y :: xs => stringifyV x ++ ',' :: stringifyElems (y :: xs)

def stringifyFields : List (String × JSVal) → List Char
  | [] => []
  | [(k, v)] => '"' :: (escapeStr k.data ++ '"' :: ':' :: stringifyV v)
  | (k, v) :: f :: fs =>
      '"' :: (escapeStr k.data ++ '"' :: ':' :: stringifyV v) ++ ',' :: stringifyFields (f :: fs)

end

/-- `JSON.stringify` as a `String`. -/
def jsonStringify (v : JSVal) : String := String.mk (stringifyV v)

/-- The JSON whitespace characters. -/
def isWsChar (c : Char) : Bool := c = ' ' || c = '\n' || c = '\t' || c = '\r'

def skipWs : List Char → List Char
  | [] => []
  | c :: cs => if isWsChar c then skipWs cs else c :: cs

/-- Decimal digits, as an explicit disjunction (keeps all reasoning about
digits by plain case analysis). -/
def myIsDigit (c : Char) : Bool :=
  c = '0' || c = '1' || c = '2' || c = '3' || c = '4' ||
  c = '5' || c = '6' || c = '7' || c = '8' || c = '9'

def charToDigit (c : Char) : Nat :=
  if c = '0' then 0 else if c = '1' then 1 else if c = '2' then 2
  else if c = '3' then 3 else if c = '4' then 4 else if c = '5' then 5
  else if c = '6' then 6 else if c = '7' then 7 else if c = '8' then 8 else 9

def digitsToNat (ds : List Char) : Nat :=
  ds.foldl (fun a c => 10 * a + charToDigit c) 0

/-- The continuation after a number token must not start with a digit. -/
def noDigitHead : List Char → Bool
  | [] => true
  | c :: _ => !myIsDigit c

/-- Reversal of one JSON escape sequence. -/
def unescape (c : Char) : Option Char :=
  if c = '"' ∨ c = '\\' ∨ c = '/' then some c
  else if c = 'n' then some '\n'
  else if c = 't' then some '\t'
  else if c = 'r' then some '\r'
  else none

/-- Body of a JSON string literal, one character at a time; the flag
records that the previous character was an unconsumed backslash. -/
def parseStrCharsAux : Bool → List Char → Option (List Char × List Char)
  | _, [] => none
  | true, e :: r =>
    match unescape e with
    | none => none
    | some d => (parseStrCharsAux false r).map (fun p => (d :: p.1, p.2))
  | false, c :: r =>
    if c = '"' then some ([], r)
    else if c = '\\' then parseStrCharsAux true r
    else (parseStrCharsAux false r).map (fun p => (c :: p.1, p.2))

/-- Body of a JSON string literal (the opening quote already consumed):
characters up to the closing quote, decoding escapes. -/
def parseStrChars : List Char → Option (List Char × List Char) := parseStrCharsAux false

/-- Match an expected literal tail (for `null` / `true` / `false`). -/
def stripLit : List Char → List Char → Option (List Char)
  | [], r => some r
  | p :: ps, c :: r => if c = p then stripLit ps r else none
  | _ :: _, [] => none

/-- A number token after a leading minus sign. -/
def parseNegNum : List Char → Option (JSVal × List Char)
  | d :: r2 =>
    if myIsDigit d then
      some (.jnum (-(digitsToNat ((d :: r2).takeWhile myIsDigit) : Int)),
            (d :: r2).dropWhile myIsDigit)
    else none
  | [] => none

mutual

/-- Fuel-indexed recursive-descent JSON parser (one value, returning the
unconsumed rest).  The fuel only bounds the bracket-nesting work; string
and number literals are consumed without fuel, so any fixed additional
fuel margin covers any fixed value shape. -/
def parseVal : Nat → List Char → Option (JSVal × List Char)
  | 0, _ => none
  | fu + 1, cs =>
    match skipWs cs with
    | [] => none
    | c :: r =>
      if c = 'n' then (stripLit [ 'u', 'l', 'l'] r).map (fun r2 => (.jnull, r2))
      else if c = 't' then (stripLit [ 'r', 'u', 'e'] r).map (fun r2 => (.jbool true, r2))
      else if c = 'f' then (stripLit [ 'a', 'l', 's', 'e'] r).map (fun r2 => (.jbool false, r2))
      else if c = '"' then (parseStrChars r).map (fun p => (.jstr (String.mk p.1), p.2))
      else if c = '[' then
        match skipWs r with
        | ']' :: r2 => some (.jarr [], r2)
        | r2 => (parseElems fu r2).map (fun p => (.jarr p.1, p.2))
      else if c = '{' then
        match skipWs r with
        | '}' :: r2 => some (.jobj [], r2)
        | r2 => (parseFields fu r2).map (fun p => (.jobj p.1, p.2))
      else if c = '-' then parseNegNum r
      else if myIsDigit c then
        some (.jnum (digitsToNat ((c :: r).takeWhile myIsDigit) : Int),
              (c :: r).dropWhile myIsDigit)
      else none

/-- Elements of a non-empty JSON array (the `[` already consumed). -/
def parseElems : Nat → List Char → Option (List JSVal × List Char)
  | 0, _ => none
  | fu + 1, cs =>
    (parseVal fu cs).bind (fun p =>
      match skipWs p.2 with
      | ',' :: r2 => (parseElems fu r2).map (fun q => (p.1 :: q.1, q.2))
      | ']' :: r2 => some ([p.1], r2)
      | _ => none)

/-- Fields of a non-empty JSON object (the `{` already consumed). -/
def parseFields : Nat → List Char → Option (List (String × JSVal) × List Char)
  | 0, _ => none
  | fu + 1, cs =>
    match skipWs cs with
    | '"' :: r =>
      (parseStrChars r).bind (fun kp =>
        match skipWs kp.2 with
        | ':' :: r3 =>
          (parseVal fu r3).bind (fun vp =>
            match skipWs vp.2 with
            | ',' :: r5 =>
              (parseFields fu r5).map (fun q => ((String.mk kp.1, vp.1) :: q.1, q.2))
            | '}' :: r5 => some ([(String.mk kp.1, vp.1)], r5)
            | _ => none)
        | _ => none)
    | _ => none

end

/-- `JSON.parse`: one JSON value, with nothing but whitespace after it;
`none` models the thrown `SyntaxError`.  The fuel `length + 20` always
suffices: every two units of nesting fuel consume at least one input
character, and 20 is margin for the innermost value. -/
def jsonParse (s : String) : Option JSVal :=
  match parseVal (s.data.length + 20) s.data with
  | some (v, rest) => if skipWs rest = [] then some v else none
  | none => none

/-! ## The stratum library boundary (src/libs/stratum.js is not in the snapshot) -/

/-- Modelled from the spec: `stratumDeserialize` of src/libs/stratum.js is
not under src/.  Per §4.1 the reframer "attempt[s] to parse it as one
well-formed JSON object", per §4.2 structured messages pass through
unchanged, and per §7 a parse failure is reported as a falsy value (the
callers test `if (!data)`), so: strings are `JSON.parse`d with `null` on
failure, every other value is returned as-is. -/
def stratumDeserialize : JSVal → JSVal
  | .jstr s =>
    match jsonParse s with
    | some v => v
    | none => .jnull
  | v => v

/-- Modelled from the spec: `stratumSerialize` of src/libs/stratum.js is
not under src/.  Per §6 the wire carries JSON-RPC 2.0 messages, so
serialization is `JSON.stringify` of the message object. -/
def stratumSerialize (v : JSVal) : String := jsonStringify v

/-! ## Work State Store (`gCurrentWork` and its accessors, client.js lines 113-138) -/

/-- The store value kept in `setCurrentWork`'s `workObject.work` field:
objects are serialized (`JSON.stringify`), everything else is stored
as-is (client.js lines 131-135). -/
def serializeWork (work : JSVal) : JSVal :=
  if work.typeofObject then .jstr (jsonStringify work) else work

/-- `setCurrentWork(work)`: builds a fresh `workObject` holding only the
`work` field and replaces `gCurrentWork` with it wholesale, ignoring the
previous record (client.js lines 126-138). -/
def setCurrentWork (work : JSVal) (_gCurrentWork : List (String × JSVal)) :
    List (String × JSVal) :=
  [("work", serializeWork work)]

/-- `getCurrentWork()`: reads `gCurrentWork.work` (client.js line 124). -/
def getCurrentWork (gCurrentWork : List (String × JSVal)) : JSVal :=
  (lookupField gCurrentWork "work").getD .undefined

/-- `getCurrentWorkId()`: `stratumDeserialize(getCurrentWork()).id`
(client.js line 115); the property read throws when deserialization
yields `null`/`undefined`. -/
def getCurrentWorkId (gCurrentWork : List (String × JSVal)) : Except Unit JSVal :=
  (stratumDeserialize (getCurrentWork gCurrentWork)).getProp "id"

/-- `getCurrentDifficulty()`:
`stratumDeserialize(getCurrentWork()).result[2]` (client.js line 118). -/
def getCurrentDifficulty (gCurrentWork : List (String × JSVal)) : Except Unit JSVal := do
  (← (stratumDeserialize (getCurrentWork gCurrentWork)).getProp "result").idx 2

/-- `getCurrentWorkSocketId()`: reads `gCurrentWork.socketId`
(client.js line 121). -/
def getCurrentWorkSocketId (gCurrentWork : List (String × JSVal)) : JSVal :=
  (lookupField gCurrentWork "socketId").getD .undefined

/-! ## Stream Reframer (`onDataSetWork`, client.js lines 143-163) -/

/-- `payload.replace(/\n+\s+/, '')`: remove the first run of whitespace
that starts with a newline and is at least two characters long (the
regex needs one `\n` plus at least one further `\s`, and `\s ⊇ \n`, so a
match is a maximal whitespace run of length ≥ 2 starting with `'\n'`). -/
def stripNlWs : List Char → List Char
  | [] => []
  | c :: cs =>
    if c = '\n' then
      match cs with
      | d :: _ => if isWsChar d then cs.dropWhile isWsChar else c :: stripNlWs cs
      | [] => [c]
    else c :: stripNlWs cs

/-- `payload.replace(/}{/g, '},{')`: rewrite every (leftmost,
non-overlapping) adjacent `\x7b\x7d`-boundary by inserting a comma. -/
def replaceBraces : List Char → List Char
  | '}' :: '{' :: rest => '}' :: ',' :: '{' :: replaceBraces rest
  | c :: rest => c :: replaceBraces rest
  | [] => []

/-- `onDataSetWork(payload)` (client.js lines 143-163): deserialize the
chunk; on a falsy result run the recovery (strip a newline-indent run,
insert commas at object boundaries, wrap in an array, re-parse, and take
`res[0]` as the message — `res[1]` is bound to `extraData` and never used);
store the message via `setCurrentWork` when it has a truthy `result` of
object type.  The value `Except.error ()` models an uncaught `TypeError`
(the `data.result` read sits outside the `try`). -/
def onDataSetWork (gCurrentWork : List (String × JSVal)) (payload : String) :
    Except Unit (List (String × JSVal)) := do
  let data0 := stratumDeserialize (.jstr payload)
  if data0.truthy then
    let r ← data0.getProp "result"
    if r.truthy && r.typeofObject then
      return setCurrentWork data0 gCurrentWork
    else
      return gCurrentWork
  else
    let p1 := stripNlWs payload.data
    let sanitized := String.mk ('[' :: replaceBraces p1 ++ [']'])
    match jsonParse sanitized with
    | none => return gCurrentWork
    | some res => do
      let e0 ← res.idx 0
      let data := stratumDeserialize e0
      let e1 ← res.idx 1
      let _extraData := stratumDeserialize e1
      let r ← data.getProp "result"
      if r.truthy && r.typeofObject then
        return setCurrentWork data gCurrentWork
      else
        return gCurrentWork

/-! ## Global client state -/

/-- The mutable state the handlers touch: the module globals
`gCurrentWork` and `gPendingVirtualBlocks`, the client's `this.ids`
(socket key ↦ generated identity token, in insertion order — the
JavaScript `for..in` over the integer-like keys enumerates them in the
ascending order in which starts assign them), and observable effect
logs: socket writes (socket key, serialized bytes), `connect` calls
(socket key, host, port), `appServer.listen` calls, and the number of
`WorkObject`s pushed. -/
structure GState where
  currentWork : List (String × JSVal)
  pending : List JSVal
  ids : List (Nat × String)
  writes : List (Nat × String)
  connects : List (Nat × String × Int)
  listens : List (String × Int)
  workObjectsCount : Nat

def initialState : GState := ⟨[], [], [], [], [], [], 0⟩

/-! ## Submission Broadcaster (client.js lines 282-337) -/

/-- JS property assignment `o.k = v` on a message value: objects are
updated in place; assignments to other primitives are silently ignored;
`null`/`undefined` receivers throw. -/
def setProp : JSVal → String → JSVal → Except Unit JSVal
  | .undefined, _, _ => .error ()
  | .jnull, _, _ => .error ()
  | .jobj fs, key, v => .ok (.jobj (setAssoc fs key v))
  | v, _, _ => .ok v

/-- The element-wise loop `for (i = 0; i < pending.length; i++)
txs[i] = pending[i]`: overwrite the first `pending.length` slots of the
array (extending it as JS index assignment does). -/
def fillFromStart (old pending : List JSVal) : List JSVal :=
  pending ++ old.drop pending.length

/-- The per-iteration `result['txs'][i] = gPendingVirtualBlocks[i]`
assignments: when the pending queue is empty the loop body never runs;
otherwise `result.txs` must be an array to be indexable (the reachable
payloads always carry `txs: []`), and it is overwritten slot by slot. -/
def writeTxs (payload : JSVal) (pending : List JSVal) : Except Unit JSVal :=
  match pending with
  | [] => .ok payload
  | _ =>
    match payload.getF "txs" with
    | .jarr xs => setProp payload "txs" (.jarr (fillFromStart xs pending))
    | _ => .error ()

/-- The `for (var key in this.ids)` loop of `sendVirtualBlocks`
(client.js lines 324-333): stamp `result.miner` with the connection's
token, overwrite `result.txs` from the pending queue, and write the
serialized payload to that connection's socket.  The single mutable
`result` object is threaded through the iterations. -/
def sendLoop (ids : List (Nat × String)) (pending : List JSVal) (payload : JSVal)
    (writes : List (Nat × String)) : Except Unit (JSVal × List (Nat × String)) :=
  match ids with
  | [] => .ok (payload, writes)
  | (key, tok) :: rest => do
    let p1 ← setProp payload "miner" (.jstr tok)
    let p2 ← writeTxs p1 pending
    sendLoop rest pending p2 (writes ++ [(key, stratumSerialize p2)])

/-- `Client.prototype.sendVirtualBlocks(result)` (client.js lines
323-337): iterate over all tracked connections, then clear
`gPendingVirtualBlocks` unconditionally. -/
def Client.sendVirtualBlocks (st : GState) (payload : JSVal) : Except Unit GState := do
  let (_, ws) ← sendLoop st.ids st.pending payload st.writes
  return { st with writes := ws, pending := [] }

/-- The submission payload literal built by `prepareToSendBlocks`
(client.js lines 301-314). -/
def mkSubmission (blocks r0 r1 r2 : JSVal) : JSVal :=
  .jobj [("id", .jnum 1), ("jsonrpc", .jstr "2.0"), ("method", .jstr "eth_submitWork"),
         ("params", .jarr [r0, r1, r2]), ("miner", .jstr ""),
         ("virtualBlocks", blocks), ("txs", .jarr [])]

/-- `Client.prototype.prepareToSendBlocks(blocks, result)` (client.js
lines 296-317): extract `result[0..2]`, build the submission payload and
hand it to `sendVirtualBlocks`. -/
def Client.prepareToSendBlocks (st : GState) (blocks result : JSVal) : Except Unit GState := do
  let sHeaderHash ← result.idx 0
  let sSeedHash ← result.idx 1
  let sShareTarget ← result.idx 2
  Client.sendVirtualBlocks st (mkSubmission blocks sHeaderHash sSeedHash sShareTarget)

/-- `vBlocks.length > 0` of client.js line 290: `length` of an array is
its length, of other objects the looked-up field, and `undefined > 0` is
false.  (In JS a `null` receiver would throw here; `null` never reaches
this guard from the modelled call sites, and is mapped to `false`.) -/
def lengthGtZero : JSVal → Bool
  | .jarr xs => decide (0 < xs.length)
  | .jobj fs =>
    match (lookupField fs "length").getD .undefined with
    | .jnum n => decide (0 < n)
    | _ => false
  | _ => false

/-- `Client.prototype.submitVirtualBlocks(vBlocks, result)` (client.js
lines 284-294): no-op on `undefined`; push a non-empty object batch onto
`gPendingVirtualBlocks` and immediately prepare a broadcast. -/
def Client.submitVirtualBlocks (st : GState) (vBlocks result : JSVal) : Except Unit GState :=
  match vBlocks with
  | .undefined => .ok st
  | v =>
    if v.typeofObject && lengthGtZero v then
      Client.prepareToSendBlocks { st with pending := st.pending ++ [v] } v result
    else .ok st

/-! ## Socket data handler (`onData`, client.js lines 165-191) -/

/-- `onData(payload)` (client.js lines 165-191): deserialize; drop falsy
results and messages without an `id`; offer the chunk to the work store
via `onDataSetWork`; when the message carries a `result` of object type,
read `result[0..2]`, derive virtual blocks through the lambda
collaborator and submit them.  `prepre` is the collaborator
`lambda.prepreVirtualBlocks` — modelled from the spec: src/consensus/lambda.js
is not under src/, and §6 specifies it as a pure function from the raw
payload to a sequence of virtual blocks, so it is passed in as an
arbitrary pure function. -/
def onData (prepre : String → JSVal) (st : GState) (payload : String) :
    Except Unit GState := do
  let obj := stratumDeserialize (.jstr payload)
  if !obj.truthy then
    return st
  else if (obj.getF "id") matches .undefined then
    return st
  else do
    let result := obj.getF "result"
    let cw ← onDataSetWork st.currentWork payload
    let st := { st with currentWork := cw }
    if result.typeofObject then do
      let _sHeaderHash ← result.idx 0
      let _sSeedHash ← result.idx 1
      let _sShareTarget ← result.idx 2
      let blocks := prepre payload
      Client.submitVirtualBlocks st blocks result
    else
      return st

/-! ## Connection start-up (client.js lines 208-265) -/

structure PeerServer where
  sid : Int
  host : String
  port : Int

structure ApiServer where
  host : String
  port : Int

structure Options where
  serverId : Int
  servers : List PeerServer
  apiServer : ApiServer

/-- `this.ids[id] = token` for the integer socket key. -/
def setAssocNat : List (Nat × String) → Nat → String → List (Nat × String)
  | [], key, v => [(key, v)]
  | (k, w) :: fs, key, v => if k = key then (key, v) :: fs else (k, w) :: setAssocNat fs key v

/-- `Client.prototype.startClientWithAppServer(appServer, updatedOptions)`
(client.js lines 225-265): push one fresh `WorkObject`; read
`id = updatedOptions.serverId` and `server = updatedOptions.servers[id]`;
when `id >= 0`, generate the identity token (`token` stands for the
32-byte random hex value), create the socket for key `id`, and `connect`
it to `(server.port, server.host)` — an out-of-range `serverId` makes
`connect` read `server.host` of `undefined`, a `TypeError`; finally start
the API server. -/
def Client.startClientWithAppServer (st : GState) (o : Options) (token : String) :
    Except Unit GState := do
  let st := { st with workObjectsCount := st.workObjectsCount + 1 }
  let id := o.serverId
  if 0 ≤ id then
    match o.servers.get? id.toNat with
    | none => .error ()
    | some server =>
      let st := { st with ids := setAssocNat st.ids id.toNat token,
                          connects := st.connects ++ [(id.toNat, server.host, server.port)] }
      return { st with listens := st.listens ++ [(o.apiServer.host, o.apiServer.port)] }
  else
    return { st with listens := st.listens ++ [(o.apiServer.host, o.apiServer.port)] }

/-! ## Message shapes used by the theorems -/

/-- The `eth_getWork`-shaped pool message
`\x7b"id":n,"jsonrpc":jr,"result":[h,s,t]\x7d` (client.js lines 102-112). -/
def workMsg (n : Nat) (jr h s t : String) : JSVal :=
  .jobj [("id", .jnum (n : Int)), ("jsonrpc", .jstr jr),
         ("result", .jarr [.jstr h, .jstr s, .jstr t])]

/-- Strings whose JSON serialization is themselves (no quote, no
backslash); all identifiers and hex digests on the modelled wire are of
this form. -/
def simpleStr (s : String) : Bool := s.data.all (fun c => !(c = '"' || c = '\\'))

/-- The submission payload as it stands when the broadcast loop writes
it for the connection holding token `tok`: `miner` stamped, `txs`
overwritten from the pending queue. -/
def stampedSubmission (blocks r0 r1 r2 : JSVal) (pending : List JSVal) (tok : String) : JSVal :=
  .jobj [("id", .jnum 1), ("jsonrpc", .jstr "2.0"), ("method", .jstr "eth_submitWork"),
         ("params", .jarr [r0, r1, r2]), ("miner", .jstr tok),
         ("virtualBlocks", blocks), ("txs", .jarr pending)]

/-- Drop one field of an object (used to state that two payloads agree
on everything but `miner`). -/
def dropField (v : JSVal) (key : String) : JSVal :=
  match v with
  | .jobj fs => .jobj (fs.filter (fun kv => kv.1 ≠ key))
  | w => w

/-! ## Lemmas: decimal digits -/

theorem charToDigit_digitChar {d : Nat} (h : d < 10) : charToDigit (digitChar d) = d := by
  interval_cases d <;> rfl

theorem myIsDigit_digitChar {d : Nat} (h : d < 10) : myIsDigit (digitChar d) = true := by
  interval_cases d <;> rfl

theorem myIsDigit_cases {c : Char} (h : myIsDigit c = true) :
    c = '0' ∨ c = '1' ∨ c = '2' ∨ c = '3' ∨ c = '4' ∨
    c = '5' ∨ c = '6' ∨ c = '7' ∨ c = '8' ∨ c = '9' := by
  simp only [myIsDigit, Bool.or_eq_true, decide_eq_true_eq] at h
  tauto

theorem natDigsAux_eq_of_le :
    ∀ n fu₁ fu₂, n ≤ fu₁ → n ≤ fu₂ → natDigsAux fu₁ n = natDigsAux fu₂ n := by
  intro n
  induction n using Nat.strong_induction_on with
  | _ n ih =>
    intro fu₁ fu₂ h₁ h₂
    rcases n with _ | m
    · rcases fu₁ with _ | f₁ <;> rcases fu₂ with _ | f₂ <;> simp [natDigsAux]
    · rcases fu₁ with _ | f₁
      · omega
      rcases fu₂ with _ | f₂
      · omega
      simp only [natDigsAux, if_neg (Nat.succ_ne_zero m)]
      have hlt : (m + 1) / 10 < m + 1 := Nat.div_lt_self (Nat.succ_pos m) (by omega)
      rw [ih ((m + 1) / 10) hlt f₁ f₂ (by omega) (by omega)]

theorem natDigs_eq {n : Nat} (h : n ≠ 0) :
    natDigs n = natDigs (n / 10) ++ [digitChar (n % 10)] := by
  rcases n with _ | m
  · exact absurd rfl h
  show natDigsAux (m + 1) (m + 1) = _
  simp only [natDigsAux, if_neg (Nat.succ_ne_zero m)]
  have hlt : (m + 1) / 10 < m + 1 := Nat.div_lt_self (Nat.succ_pos m) (by omega)
  rw [natDigsAux_eq_of_le ((m + 1) / 10) m ((m + 1) / 10) (by omega) le_rfl]
  rfl

theorem natDigs_all_digit : ∀ n, ∀ c ∈ natDigs n, myIsDigit c = true := by
  intro n
  induction n using Nat.strong_induction_on with
  | _ n ih =>
    intro c hc
    rcases eq_or_ne n 0 with rfl | h
    · simp [natDigs, natDigsAux] at hc
    rw [natDigs_eq h] at hc
    rcases List.mem_append.mp hc with h' | h'
    · exact ih (n / 10) (Nat.div_lt_self (Nat.pos_of_ne_zero h) (by omega)) c h'
    · rcases List.mem_singleton.mp h' with rfl
      exact myIsDigit_digitChar (Nat.mod_lt n (by omega))

theorem natRepr_all_digit : ∀ n, ∀ c ∈ natRepr n, myIsDigit c = true := by
  intro n c hc
  rcases eq_or_ne n 0 with rfl | h
  · simp only [natRepr, if_pos rfl] at hc
    rcases List.mem_singleton.mp hc with rfl
    rfl
  · rw [natRepr, if_neg h] at hc
    exact natDigs_all_digit n c hc

theorem natRepr_ne_nil (n : Nat) : natRepr n ≠ [] := by
  rcases eq_or_ne n 0 with rfl | h
  · simp [natRepr]
  · rw [natRepr, if_neg h, natDigs_eq h]
    simp

theorem digitsVal_natDigs :
    ∀ n a, (natDigs n).foldl (fun a c => 10 * a + charToDigit c) a =
      a * 10 ^ (natDigs n).length + n := by
  intro n
  induction n using Nat.strong_induction_on with
  | _ n ih =>
    intro a
    rcases eq_or_ne n 0 with rfl | h
    · simp [natDigs, natDigsAux]
    rw [natDigs_eq h, List.foldl_append, List.length_append,
      ih (n / 10) (Nat.div_lt_self (Nat.pos_of_ne_zero h) (by omega)) a]
    simp only [List.foldl_cons, List.foldl_nil, List.length_cons, List.length_nil]
    rw [charToDigit_digitChar (Nat.mod_lt n (by omega))]
    have := Nat.div_add_mod n 10
    ring_nf
    omega

theorem digitsToNat_natRepr (n : Nat) : digitsToNat (natRepr n) = n := by
  rcases eq_or_ne n 0 with rfl | h
  · rfl
  · rw [natRepr, if_neg h]
    unfold digitsToNat
    rw [digitsVal_natDigs n 0]
    omega

/-! ## Lemmas: character scanning -/

theorem takeWhile_append_of_all {p : Char → Bool} :
    ∀ {l r : List Char}, (∀ c ∈ l, p c = true) →
      (l ++ r).takeWhile p = l ++ r.takeWhile p := by
  intro l
  induction l with
  | nil => intro r _; rfl
  | cons c cs ih =>
    intro r h
    rw [List.cons_append, List.takeWhile_cons, if_pos (h c (List.mem_cons_self c cs)),
      ih (fun d hd => h d (List.mem_cons_of_mem c hd)), List.cons_append]

theorem dropWhile_append_of_all {p : Char → Bool} :
    ∀ {l r : List Char}, (∀ c ∈ l, p c = true) →
      (l ++ r).dropWhile p = r.dropWhile p := by
  intro l
  induction l with
  | nil => intro r _; rfl
  | cons c cs ih =>
    intro r h
    rw [List.cons_append, List.dropWhile_cons, if_pos (h c (List.mem_cons_self c cs))]
    exact ih (fun d hd => h d (List.mem_cons_of_mem c hd))

theorem takeWhile_eq_nil_of_head {p : Char → Bool} {r : List Char}
    (h : match r with | [] => True | c :: _ => p c = false) :
    r.takeWhile p = [] := by
  rcases r with _ | ⟨c, cs⟩
  · rfl
  · simp only at h
    simp [List.takeWhile_cons, h]

theorem dropWhile_eq_self_of_head {p : Char → Bool} {r : List Char}
    (h : match r with | [] => True | c :: _ => p c = false) :
    r.dropWhile p = r := by
  rcases r with _ | ⟨c, cs⟩
  · rfl
  · simp only at h
    simp [List.dropWhile_cons, h]

theorem myIsDigit_not_ws {c : Char} (h : myIsDigit c = true) : isWsChar c = false := by
  rcases myIsDigit_cases h with rfl | rfl | rfl | rfl | rfl | rfl | rfl | rfl | rfl | rfl <;> rfl

theorem skipWs_cons {c : Char} {l : List Char} (h : isWsChar c = false) :
    skipWs (c :: l) = c :: l := by
  simp [skipWs, h]

/-! ## Lemmas: string and number tokens -/

theorem simpleStr_chars {s : String} (h : simpleStr s = true) :
    ∀ c ∈ s.data, (c = '"' → False) ∧ (c = '\\' → False) := by
  intro c hc
  have := (List.all_eq_true.mp h) c hc
  simp only [Bool.not_eq_true', Bool.or_eq_false_iff, decide_eq_false_iff_not] at this
  exact ⟨fun h' => this.1 h', fun h' => this.2 h'⟩

theorem parseStrChars_simple :
    ∀ {l r : List Char}, (∀ c ∈ l, (c = '"' → False) ∧ (c = '\\' → False)) →
      parseStrChars (l ++ '"' :: r) = some (l, r) := by
  intro l
  induction l with
  | nil => intro r _; rfl
  | cons c cs ih =>
    intro r h
    have hc := h c (List.mem_cons_self c cs)
    show parseStrCharsAux false (c :: (cs ++ '"' :: r)) = some (c :: cs, r)
    rw [parseStrCharsAux, if_neg (fun h' => hc.1 h'), if_neg (fun h' => hc.2 h')]
    rw [show parseStrCharsAux false (cs ++ '"' :: r) = parseStrChars (cs ++ '"' :: r) from rfl,
      ih (fun d hd => h d (List.mem_cons_of_mem c hd))]
    rfl

theorem escapeStr_simple :
    ∀ {l : List Char}, (∀ c ∈ l, (c = '"' → False) ∧ (c = '\\' → False)) →
      escapeStr l = l := by
  intro l
  induction l with
  | nil => intro _; rfl
  | cons c cs ih =>
    intro h
    have hc := h c (List.mem_cons_self c cs)
    simp only [escapeStr, if_neg (fun h' : c = '"' ∨ c = '\\' => h'.elim hc.1 hc.2)]
    rw [ih (fun d hd => h d (List.mem_cons_of_mem c hd))]
    rfl

theorem stringMk_data (s : String) : String.mk s.data = s := rfl

theorem parseVal_str {s : String} (hs : simpleStr s = true) (fu : Nat) (r : List Char) :
    parseVal (fu + 1) ('"' :: (s.data ++ '"' :: r)) = some (.jstr s, r) := by
  show (parseStrChars (s.data ++ '"' :: r)).map (fun p => (JSVal.jstr (String.mk p.1), p.2)) =
    some (.jstr s, r)
  rw [parseStrChars_simple (simpleStr_chars hs)]
  rfl

theorem myIsDigit_branch {c : Char} (h : myIsDigit c = true) :
    c ≠ 'n' ∧ c ≠ 't' ∧ c ≠ 'f' ∧ c ≠ '"' ∧ c ≠ '[' ∧ c ≠ '{' ∧ c ≠ '-' := by
  rcases myIsDigit_cases h with rfl|rfl|rfl|rfl|rfl|rfl|rfl|rfl|rfl|rfl <;>
    exact ⟨by decide, by decide, by decide, by decide, by decide, by decide, by decide⟩

theorem takeWhile_digits_nil {r : List Char} (hr : noDigitHead r = true) :
    r.takeWhile myIsDigit = [] := by
  rcases r with _ | ⟨c, cs⟩
  · rfl
  · simp only [noDigitHead, Bool.not_eq_true'] at hr
    simp [List.takeWhile_cons, hr]

theorem dropWhile_digits_self {r : List Char} (hr : noDigitHead r = true) :
    r.dropWhile myIsDigit = r := by
  rcases r with _ | ⟨c, cs⟩
  · rfl
  · simp only [noDigitHead, Bool.not_eq_true'] at hr
    simp [List.dropWhile_cons, hr]

theorem parseVal_nat (n : Nat) (fu : Nat) {r : List Char} (hr : noDigitHead r = true) :
    parseVal (fu + 1) (natRepr n ++ r) = some (.jnum (n : Int), r) := by
  obtain ⟨c, cs, hcons⟩ : ∃ c cs, natRepr n = c :: cs := by
    rcases h : natRepr n with _ | ⟨c, cs⟩
    · exact absurd h (natRepr_ne_nil n)
    · exact ⟨c, cs, rfl⟩
  have hdig : ∀ d ∈ natRepr n, myIsDigit d = true := natRepr_all_digit n
  have hc : myIsDigit c = true := hdig c (by rw [hcons]; exact List.mem_cons_self c cs)
  obtain ⟨h1, h2, h3, h4, h5, h6, h7⟩ := myIsDigit_branch hc
  rw [hcons, List.cons_append, parseVal, skipWs_cons (myIsDigit_not_ws hc)]
  simp only [if_neg h1, if_neg h2, if_neg h3, if_neg h4, if_neg h5, if_neg h6, if_neg h7,
    if_pos hc]
  rw [show c :: (cs ++ r) = (c :: cs) ++ r from rfl, ← hcons,
    takeWhile_append_of_all hdig, takeWhile_digits_nil hr, List.append_nil,
    dropWhile_append_of_all hdig, dropWhile_digits_self hr]
  rw [show digitsToNat (natRepr n) = n from digitsToNat_natRepr n]

/-! ## Lemmas: parsing a serialized work message -/

theorem parseArr3 (fu : Nat) {h sd t : String} (hh : simpleStr h = true)
    (hsd : simpleStr sd = true) (ht : simpleStr t = true) (r : List Char) :
    parseVal (fu + 5)
      ('[' :: '"' :: (h.data ++ '"' :: ',' :: '"' :: (sd.data ++ '"' :: ',' :: '"' ::
        (t.data ++ '"' :: ']' :: r)))) =
      some (.jarr [.jstr h, .jstr sd, .jstr t], r) := by
  show (parseElems (fu + 4)
      ('"' :: (h.data ++ '"' :: ',' :: '"' :: (sd.data ++ '"' :: ',' :: '"' ::
        (t.data ++ '"' :: ']' :: r))))).map (fun p => (JSVal.jarr p.1, p.2)) = _
  rw [parseElems, parseVal_str hh]
  show ((parseElems (fu + 3)
      ('"' :: (sd.data ++ '"' :: ',' :: '"' :: (t.data ++ '"' :: ']' :: r)))).map
        (fun q => (JSVal.jstr h :: q.1, q.2))).map (fun p => (JSVal.jarr p.1, p.2)) = _
  rw [parseElems, parseVal_str hsd]
  show (((parseElems (fu + 2) ('"' :: (t.data ++ '"' :: ']' :: r))).map
        (fun q => (JSVal.jstr sd :: q.1, q.2))).map
        (fun q => (JSVal.jstr h :: q.1, q.2))).map (fun p => (JSVal.jarr p.1, p.2)) = _
  rw [parseElems, parseVal_str ht]
  rfl

theorem parse_workMsg (fu : Nat) (n : Nat) {jr h sd t : String}
    (hjr : simpleStr jr = true) (hh : simpleStr h = true)
    (hsd : simpleStr sd = true) (ht : simpleStr t = true) (rest : List Char) :
    parseVal (fu + 9) ('{' :: '"' :: 'i' :: 'd' :: '"' :: ':' :: (natRepr n ++ ',' :: '"' :: 'j' :: 's' :: 'o' :: 'n' :: 'r' :: 'p' :: 'c' :: '"' :: ':' :: '"' :: (jr.data ++ '"' :: ',' :: '"' :: 'r' :: 'e' :: 's' :: 'u' :: 'l' :: 't' :: '"' :: ':' :: '[' :: '"' :: (h.data ++ '"' :: ',' :: '"' :: (sd.data ++ '"' :: ',' :: '"' :: (t.data ++ '"' :: ']' :: '}' :: rest)))))) = some (workMsg n jr h sd t, rest) := by
  show Option.map (fun p => (JSVal.jobj p.1, p.2)) (parseFields (fu + 8) ('"' :: 'i' :: 'd' :: '"' :: ':' :: (natRepr n ++ ',' :: '"' :: 'j' :: 's' :: 'o' :: 'n' :: 'r' :: 'p' :: 'c' :: '"' :: ':' :: '"' :: (jr.data ++ '"' :: ',' :: '"' :: 'r' :: 'e' :: 's' :: 'u' :: 'l' :: 't' :: '"' :: ':' :: '[' :: '"' :: (h.data ++ '"' :: ',' :: '"' :: (sd.data ++ '"' :: ',' :: '"' :: (t.data ++ '"' :: ']' :: '}' :: rest))))))) = _
  rw [parseFields]
  show Option.map (fun p => (JSVal.jobj p.1, p.2)) (Option.bind (parseVal (fu + 7) ((natRepr n ++ ',' :: '"' :: 'j' :: 's' :: 'o' :: 'n' :: 'r' :: 'p' :: 'c' :: '"' :: ':' :: '"' :: (jr.data ++ '"' :: ',' :: '"' :: 'r' :: 'e' :: 's' :: 'u' :: 'l' :: 't' :: '"' :: ':' :: '[' :: '"' :: (h.data ++ '"' :: ',' :: '"' :: (sd.data ++ '"' :: ',' :: '"' :: (t.data ++ '"' :: ']' :: '}' :: rest)))))))
      (fun vp =>
        match skipWs vp.2 with
        | ',' :: r5 => Option.map (fun q => ((("id" : String), vp.1) :: q.1, q.2)) (parseFields (fu + 7) r5)
        | '}' :: r5 => some ([(("id" : String), vp.1)], r5)
        | _ => none)) = _
  rw [parseVal_nat n]
  · show Option.map (fun p => (JSVal.jobj p.1, p.2)) (Option.map (fun q => ((("id" : String), JSVal.jnum (n : Int)) :: q.1, q.2)) (parseFields (fu + 7) ('"' :: 'j' :: 's' :: 'o' :: 'n' :: 'r' :: 'p' :: 'c' :: '"' :: ':' :: '"' :: (jr.data ++ '"' :: ',' :: '"' :: 'r' :: 'e' :: 's' :: 'u' :: 'l' :: 't' :: '"' :: ':' :: '[' :: '"' :: (h.data ++ '"' :: ',' :: '"' :: (sd.data ++ '"' :: ',' :: '"' :: (t.data ++ '"' :: ']' :: '}' :: rest))))))) = _
    rw [parseFields]
    show Option.map (fun p => (JSVal.jobj p.1, p.2)) (Option.map (fun q => ((("id" : String), JSVal.jnum (n : Int)) :: q.1, q.2)) (Option.bind (parseVal (fu + 6) ('"' :: (jr.data ++ '"' :: ',' :: '"' :: 'r' :: 'e' :: 's' :: 'u' :: 'l' :: 't' :: '"' :: ':' :: '[' :: '"' :: (h.data ++ '"' :: ',' :: '"' :: (sd.data ++ '"' :: ',' :: '"' :: (t.data ++ '"' :: ']' :: '}' :: rest))))))
        (fun vp =>
        match skipWs vp.2 with
        | ',' :: r5 => Option.map (fun q => ((("jsonrpc" : String), vp.1) :: q.1, q.2)) (parseFields (fu + 6) r5)
        | '}' :: r5 => some ([(("jsonrpc" : String), vp.1)], r5)
        | _ => none))) = _
    rw [parseVal_str hjr]
    show Option.map (fun p => (JSVal.jobj p.1, p.2)) (Option.map (fun q => ((("id" : String), JSVal.jnum (n : Int)) :: q.1, q.2)) (Option.map (fun q => ((("jsonrpc" : String), JSVal.jstr jr) :: q.1, q.2)) (parseFields (fu + 6) ('"' :: 'r' :: 'e' :: 's' :: 'u' :: 'l' :: 't' :: '"' :: ':' :: '[' :: '"' :: (h.data ++ '"' :: ',' :: '"' :: (sd.data ++ '"' :: ',' :: '"' :: (t.data ++ '"' :: ']' :: '}' :: rest))))))) = _
    rw [parseFields]
    show Option.map (fun p => (JSVal.jobj p.1, p.2)) (Option.map (fun q => ((("id" : String), JSVal.jnum (n : Int)) :: q.1, q.2)) (Option.map (fun q => ((("jsonrpc" : String), JSVal.jstr jr) :: q.1, q.2)) (Option.bind (parseVal (fu + 5) ('[' :: '"' :: (h.data ++ '"' :: ',' :: '"' :: (sd.data ++ '"' :: ',' :: '"' :: (t.data ++ '"' :: ']' :: '}' :: rest)))))
        (fun vp =>
        match skipWs vp.2 with
        | ',' :: r5 => Option.map (fun q => ((("result" : String), vp.1) :: q.1, q.2)) (parseFields (fu + 5) r5)
        | '}' :: r5 => some ([(("result" : String), vp.1)], r5)
        | _ => none)))) = _
    rw [parseArr3 fu hh hsd ht]
    rfl
  · rfl

theorem stringify_workMsg (n : Nat) {jr h sd t : String}
    (hjr : simpleStr jr = true) (hh : simpleStr h = true)
    (hsd : simpleStr sd = true) (ht : simpleStr t = true) (rest : List Char) :
    stringifyV (workMsg n jr h sd t) ++ rest =
      '{' :: '"' :: 'i' :: 'd' :: '"' :: ':' :: (natRepr n ++ ',' :: '"' :: 'j' :: 's' :: 'o' :: 'n' :: 'r' :: 'p' :: 'c' :: '"' :: ':' :: '"' :: (jr.data ++ '"' :: ',' :: '"' :: 'r' :: 'e' :: 's' :: 'u' :: 'l' :: 't' :: '"' :: ':' :: '[' :: '"' :: (h.data ++ '"' :: ',' :: '"' :: (sd.data ++ '"' :: ',' :: '"' :: (t.data ++ '"' :: ']' :: '}' :: rest))))) := by
  simp only [workMsg, stringifyV, stringifyFields, stringifyElems,
    escapeStr_simple (simpleStr_chars hjr), escapeStr_simple (simpleStr_chars hh),
    escapeStr_simple (simpleStr_chars hsd), escapeStr_simple (simpleStr_chars ht),
    show escapeStr (String.data "id") = ['i', 'd'] from rfl,
    show escapeStr (String.data "jsonrpc") = ['j', 's', 'o', 'n', 'r', 'p', 'c'] from rfl,
    show escapeStr (String.data "result") = ['r', 'e', 's', 'u', 'l', 't'] from rfl,
    show intRepr ((n : Nat) : Int) = natRepr n from rfl,
    List.cons_append, List.append_assoc, List.nil_append, List.append_nil]

theorem stringMkData (l : List Char) : (String.mk l).data = l := rfl

theorem jsonParse_workMsg (n : Nat) {jr h sd t : String}
    (hjr : simpleStr jr = true) (hh : simpleStr h = true)
    (hsd : simpleStr sd = true) (ht : simpleStr t = true) :
    jsonParse (jsonStringify (workMsg n jr h sd t)) = some (workMsg n jr h sd t) := by
  have h1 : stringifyV (workMsg n jr h sd t) =
      '{' :: '"' :: 'i' :: 'd' :: '"' :: ':' :: (natRepr n ++ ',' :: '"' :: 'j' :: 's' :: 'o' :: 'n' :: 'r' :: 'p' :: 'c' :: '"' :: ':' :: '"' :: (jr.data ++ '"' :: ',' :: '"' :: 'r' :: 'e' :: 's' :: 'u' :: 'l' :: 't' :: '"' :: ':' :: '[' :: '"' :: (h.data ++ '"' :: ',' :: '"' :: (sd.data ++ '"' :: ',' :: '"' :: (t.data ++ '"' :: ']' :: '}' :: ([] : List Char)))))) := by
    have := stringify_workMsg n hjr hh hsd ht []
    rwa [List.append_nil] at this
  have h2 : ∀ m : Nat, m + 20 = m + 11 + 9 := fun _ => rfl
  simp only [jsonParse, jsonStringify, stringMkData]
  rw [h1, h2, parse_workMsg _ n hjr hh hsd ht []]
  rfl

/-! ## Lemmas: the broadcast loop -/

theorem exceptBindOk {α β : Type} (x : α) (f : α → Except Unit β) :
    (Except.ok x : Except Unit α) >>= f = f x := rfl

theorem mkSubmission_eq_stamped (b r0 r1 r2 : JSVal) :
    mkSubmission b r0 r1 r2 = stampedSubmission b r0 r1 r2 [] "" := rfl

theorem setProp_stamped (b r0 r1 r2 : JSVal) (q : List JSVal) (t t' : String) :
    setProp (stampedSubmission b r0 r1 r2 q t) "miner" (.jstr t') =
      .ok (stampedSubmission b r0 r1 r2 q t') := rfl

theorem writeTxs_stamped (b r0 r1 r2 : JSVal) (pending : List JSVal) (t : String) :
    writeTxs (stampedSubmission b r0 r1 r2 pending t) pending =
      .ok (stampedSubmission b r0 r1 r2 pending t) := by
  cases pending with
  | nil => rfl
  | cons q qs =>
    show setProp (stampedSubmission b r0 r1 r2 (q :: qs) t) "txs"
        (.jarr (fillFromStart (q :: qs) (q :: qs))) = _
    rw [show fillFromStart (q :: qs) (q :: qs) = q :: qs by
      simp [fillFromStart, List.drop_length]]
    rfl

theorem writeTxs_emptyTxs (b r0 r1 r2 : JSVal) (pending : List JSVal) (t : String) :
    writeTxs (stampedSubmission b r0 r1 r2 [] t) pending =
      .ok (stampedSubmission b r0 r1 r2 pending t) := by
  cases pending with
  | nil => rfl
  | cons q qs =>
    show setProp (stampedSubmission b r0 r1 r2 [] t) "txs"
        (.jarr (fillFromStart [] (q :: qs))) = _
    rw [show fillFromStart [] (q :: qs) = q :: qs by simp [fillFromStart]]
    rfl

theorem sendLoop_stamped (ids : List (Nat × String)) :
    ∀ (pending : List JSVal) (b r0 r1 r2 : JSVal) (t : String) (ws : List (Nat × String)),
    ∃ pf, sendLoop ids pending (stampedSubmission b r0 r1 r2 pending t) ws =
      .ok (pf, ws ++ ids.map
        (fun kt => (kt.1, stratumSerialize (stampedSubmission b r0 r1 r2 pending kt.2)))) := by
  induction ids with
  | nil =>
    intro pending b r0 r1 r2 t ws
    exact ⟨stampedSubmission b r0 r1 r2 pending t, by simp [sendLoop]⟩
  | cons kt rest ih =>
    obtain ⟨key, tok⟩ := kt
    intro pending b r0 r1 r2 t ws
    obtain ⟨pf, hrec⟩ := ih pending b r0 r1 r2 tok
      (ws ++ [(key, stratumSerialize (stampedSubmission b r0 r1 r2 pending tok))])
    refine ⟨pf, ?_⟩
    simp only [sendLoop, setProp_stamped, exceptBindOk]
    rw [writeTxs_stamped]
    simp only [exceptBindOk]
    rw [hrec]
    simp [List.append_assoc]

theorem send_spec (st : GState) (b r0 r1 r2 : JSVal) :
    Client.sendVirtualBlocks st (mkSubmission b r0 r1 r2) =
      .ok { st with
            pending := [],
            writes := st.writes ++ st.ids.map
              (fun kt => (kt.1, stratumSerialize (stampedSubmission b r0 r1 r2 st.pending kt.2))) } := by
  show (sendLoop st.ids st.pending (mkSubmission b r0 r1 r2) st.writes).bind _ = _
  rcases hids : st.ids with _ | ⟨⟨key, tok⟩, rest⟩
  · simp only [hids, List.map_nil, List.append_nil]
    rfl
  · rw [mkSubmission_eq_stamped]
    simp only [sendLoop, setProp_stamped, exceptBindOk]
    rw [writeTxs_emptyTxs]
    simp only [exceptBindOk]
    obtain ⟨pf, hrec⟩ := sendLoop_stamped rest st.pending b r0 r1 r2 tok
      (st.writes ++ [(key, stratumSerialize (stampedSubmission b r0 r1 r2 st.pending tok))])
    rw [hrec]
    simp only [List.append_assoc, List.singleton_append]
    rfl

/-! ## Lemmas: work store reads -/

theorem stratumDeserialize_workMsg (n : Nat) {jr h sd t : String}
    (hjr : simpleStr jr = true) (hh : simpleStr h = true)
    (hsd : simpleStr sd = true) (ht : simpleStr t = true) :
    stratumDeserialize (.jstr (jsonStringify (workMsg n jr h sd t))) = workMsg n jr h sd t := by
  show (match jsonParse (jsonStringify (workMsg n jr h sd t)) with
        | some v => v
        | none => JSVal.jnull) = _
  rw [jsonParse_workMsg n hjr hh hsd ht]

theorem workStore_reads (n : Nat) {jr h sd t : String} (cw : List (String × JSVal))
    (hjr : simpleStr jr = true) (hh : simpleStr h = true)
    (hsd : simpleStr sd = true) (ht : simpleStr t = true) :
    getCurrentWorkId (setCurrentWork (workMsg n jr h sd t) cw) = .ok (.jnum (n : Int)) ∧
    getCurrentDifficulty (setCurrentWork (workMsg n jr h sd t) cw) = .ok (.jstr t) := by
  have hd := stratumDeserialize_workMsg n hjr hh hsd ht
  constructor
  · show (stratumDeserialize (.jstr (jsonStringify (workMsg n jr h sd t)))).getProp "id" = _
    rw [hd]
    rfl
  · show ((stratumDeserialize (.jstr (jsonStringify (workMsg n jr h sd t)))).getProp
        "result") >>= (fun r => r.idx 2) = _
    rw [hd]
    rfl

/-! ## The claims -/

/-- C1: for every two work messages A and B, `setCurrentWork(A)` then
`setCurrentWork(B)` leaves the store holding exactly B's record — the
stored object is rebuilt from B alone, so every subsequent
`getCurrentWork` / `getCurrentWorkId` / `getCurrentDifficulty` /
`getCurrentWorkSocketId` read returns only fields of B, with no field of
A merged in or surviving (the id/difficulty reads are shown for an
arbitrary work-shaped B). -/
theorem C1_work_overwrite (A B : JSVal) (cw : List (String × JSVal))
    (n : Nat) (jr h sd t : String)
    (hjr : simpleStr jr = true) (hh : simpleStr h = true)
    (hsd : simpleStr sd = true) (ht : simpleStr t = true) :
    setCurrentWork B (setCurrentWork A cw) = setCurrentWork B cw ∧
    setCurrentWork B (setCurrentWork A cw) = [("work", serializeWork B)] ∧
    getCurrentWork (setCurrentWork B (setCurrentWork A cw)) = serializeWork B ∧
    getCurrentWorkId (setCurrentWork (workMsg n jr h sd t) (setCurrentWork A cw)) =
      .ok (.jnum (n : Int)) ∧
    getCurrentDifficulty (setCurrentWork (workMsg n jr h sd t) (setCurrentWork A cw)) =
      .ok (.jstr t) ∧
    getCurrentWorkSocketId (setCurrentWork B (setCurrentWork A cw)) =
      getCurrentWorkSocketId (setCurrentWork B cw) := by
  have hw := workStore_reads n (setCurrentWork A cw) hjr hh hsd ht
  exact ⟨rfl, rfl, rfl, hw.1, hw.2, rfl⟩

/-- C1 witness: the overwrite property at the two concrete work messages
of the spec's example shape. -/
theorem C1_work_overwrite_witness :
    setCurrentWork (workMsg 2 "2.0" "0xDD" "0xEE" "0xFF")
        (setCurrentWork (workMsg 1 "2.0" "0xAA" "0xBB" "0xCC") []) =
      setCurrentWork (workMsg 2 "2.0" "0xDD" "0xEE" "0xFF") [] ∧
    getCurrentWorkId (setCurrentWork (workMsg 2 "2.0" "0xDD" "0xEE" "0xFF")
        (setCurrentWork (workMsg 1 "2.0" "0xAA" "0xBB" "0xCC") [])) = .ok (.jnum 2) ∧
    getCurrentDifficulty (setCurrentWork (workMsg 2 "2.0" "0xDD" "0xEE" "0xFF")
        (setCurrentWork (workMsg 1 "2.0" "0xAA" "0xBB" "0xCC") [])) = .ok (.jstr "0xFF") := by
  have h := C1_work_overwrite (workMsg 1 "2.0" "0xAA" "0xBB" "0xCC")
    (workMsg 2 "2.0" "0xDD" "0xEE" "0xFF") [] 2 "2.0" "0xDD" "0xEE" "0xFF"
    (by decide) (by decide) (by decide) (by decide)
  exact ⟨h.1, h.2.2.2.1, h.2.2.2.2.1⟩

/-- C9: after a valid work message with id `n` and structured result
`[h, s, t]` is stored via `setCurrentWork`, `getCurrentWorkId()` returns
`n` and `getCurrentDifficulty()` returns the third result element `t`:
the accessors extract exactly those fields from the stored record. -/
theorem C9_accessor_extraction (n : Nat) (jr h sd t : String) (cw : List (String × JSVal))
    (hjr : simpleStr jr = true) (hh : simpleStr h = true)
    (hsd : simpleStr sd = true) (ht : simpleStr t = true) :
    getCurrentWorkId (setCurrentWork (workMsg n jr h sd t) cw) = .ok (.jnum (n : Int)) ∧
    getCurrentDifficulty (setCurrentWork (workMsg n jr h sd t) cw) = .ok (.jstr t) :=
  workStore_reads n cw hjr hh hsd ht

/-- C9 witness: the spec's example payload
`\x7b"id":1,"jsonrpc":"2.0","result":["0xAA","0xBB","0xCC"]\x7d` yields
work id `1` and difficulty `"0xCC"`. -/
theorem C9_accessor_extraction_witness :
    getCurrentWorkId (setCurrentWork (workMsg 1 "2.0" "0xAA" "0xBB" "0xCC") []) =
      .ok (.jnum 1) ∧
    getCurrentDifficulty (setCurrentWork (workMsg 1 "2.0" "0xAA" "0xBB" "0xCC") []) =
      .ok (.jstr "0xCC") :=
  C9_accessor_extraction 1 "2.0" "0xAA" "0xBB" "0xCC" []
    (by decide) (by decide) (by decide) (by decide)

/-- C10: every `setCurrentWork` call replaces the global record with an
object holding exactly the one field `work` (the JSON serialization for
object arguments, the value as-is otherwise), so
`getCurrentWorkSocketId()` reads `undefined` afterwards — the stored
record never carries a `socketId`. -/
theorem C10_work_record_shape (w : JSVal) (cw : List (String × JSVal)) :
    setCurrentWork w cw =
      [("work", if w.typeofObject then .jstr (jsonStringify w) else w)] ∧
    getCurrentWorkSocketId (setCurrentWork w cw) = .undefined :=
  ⟨rfl, rfl⟩

/-- C7: an inbound chunk that does not parse as JSON is dropped by the
data handler with no state mutation (work record, pending queue, writes
and all other state are untouched), no socket write, no surfaced error
and no escaping exception.  (The handler returns as soon as
`stratumDeserialize` yields a falsy value, before the reframing recovery
could even be consulted, so plain parse failure already suffices as the
hypothesis.) -/
theorem C7_malformed_dropped (prepre : String → JSVal) (st : GState) (payload : String)
    (hfail : jsonParse payload = none) :
    onData prepre st payload = .ok st := by
  have hds : stratumDeserialize (.jstr payload) = .jnull := by
    show (match jsonParse payload with
          | some v => v
          | none => JSVal.jnull) = _
    rw [hfail]
  simp only [onData, hds]
  rfl

/-- C7 witness: the spec's malformed-input scenario, the byte sequence
`not json`, leaves the initial state untouched. -/
theorem C7_malformed_dropped_witness :
    onData (fun _ => .undefined) initialState "not json" = .ok initialState :=
  C7_malformed_dropped (fun _ => .undefined) initialState "not json" (by rfl)

/-- C8: an inbound message whose parsed object lacks an `id` field is
dropped before any state mutation: the work record, the pending queue
and the write log are unchanged and no broadcast is triggered. -/
theorem C8_missing_id_dropped (prepre : String → JSVal) (st : GState) (payload : String)
    (fs : List (String × JSVal)) (hparse : jsonParse payload = some (.jobj fs))
    (hid : lookupField fs "id" = none) :
    onData prepre st payload = .ok st := by
  have hds : stratumDeserialize (.jstr payload) = .jobj fs := by
    show (match jsonParse payload with
          | some v => v
          | none => JSVal.jnull) = _
    rw [hparse]
  have hgf : (JSVal.jobj fs).getF "id" = .undefined := by
    show (lookupField fs "id").getD .undefined = _
    rw [hid]
    rfl
  simp only [onData, hds, hgf]
  rfl

/-- C8 witness: a well-formed message without an `id` field
(`\x7b"jsonrpc":"2.0","result":["0xAA","0xBB","0xCC"]\x7d`) is dropped
with the state unchanged. -/
theorem C8_missing_id_dropped_witness :
    onData (fun _ => .undefined) initialState
      (jsonStringify (.jobj [("jsonrpc", .jstr "2.0"),
        ("result", .jarr [.jstr "0xAA", .jstr "0xBB", .jstr "0xCC"])])) =
      .ok initialState :=
  C8_missing_id_dropped (fun _ => .undefined) initialState _
    [("jsonrpc", .jstr "2.0"), ("result", .jarr [.jstr "0xAA", .jstr "0xBB", .jstr "0xCC"])]
    (by rfl) (by rfl)

/-- C2: evaluation of the data handler at the failing input — a chunk of
two concatenated well-formed work messages, both carrying structured
results.  Conjunct 1: the handler drops the whole chunk (its initial
deserialization fails and it returns before the reframing recovery,
which only `onDataSetWork` holds, is reachable), so neither message is
routed and neither work-store update happens.  Conjunct 2: even invoked
directly on the chunk, the reframer stores only the first object's work
and discards the second (`extraData` is computed and never used).
Conjunct 3: a single well-formed message is, as the claim says, parsed
and routed, updating the work store. -/
theorem C2_concatenated_chunk_dropped :
    onData (fun _ => .undefined) initialState
      (jsonStringify (workMsg 1 "2.0" "0xAA" "0xBB" "0xCC") ++
        jsonStringify (workMsg 2 "2.0" "0xDD" "0xEE" "0xFF")) = .ok initialState ∧
    onDataSetWork []
      (jsonStringify (workMsg 1 "2.0" "0xAA" "0xBB" "0xCC") ++
        jsonStringify (workMsg 2 "2.0" "0xDD" "0xEE" "0xFF")) =
      .ok [("work", .jstr (jsonStringify (workMsg 1 "2.0" "0xAA" "0xBB" "0xCC")))] ∧
    onData (fun _ => .undefined) initialState
      (jsonStringify (workMsg 2 "2.0" "0xDD" "0xEE" "0xFF")) =
      .ok { initialState with
            currentWork := [("work", .jstr (jsonStringify (workMsg 2 "2.0" "0xDD" "0xEE" "0xFF")))] } :=
  ⟨rfl, rfl, rfl⟩

/-- C3 counterexample: with two configured peers (ids 0 and 1, both
≥ 0) and `serverId = 0`, one start call opens exactly one connection —
to `servers[0]` only — and generates one token; no socket to the second
configured peer `("h1", 4441)` is ever opened, although its id `1 ≥ 0`. -/
theorem C3_counterexample :
    Client.startClientWithAppServer initialState
      ⟨0, [⟨0, "h0", 4440⟩, ⟨1, "h1", 4441⟩], ⟨"api", 8080⟩⟩ "0xT0" =
      .ok { initialState with
            workObjectsCount := 1,
            ids := [(0, "0xT0")],
            connects := [(0, "h0", 4440)],
            listens := [("api", 8080)] } ∧
    (⟨0, [⟨0, "h0", 4440⟩, ⟨1, "h1", 4441⟩], ⟨"api", 8080⟩⟩ : Options).servers.get? 1 =
      some ⟨1, "h1", 4441⟩ :=
  ⟨rfl, rfl⟩

/-- C3 (amended): on every start of the client, when the configured
`serverId` is ≥ 0 and in range, exactly one socket connection is opened
— to `servers[serverId]`'s (host, port) — and one per-connection
identity token is generated and recorded for that socket key; peers
other than `servers[serverId]` get neither a connection nor a token
from this start. -/
theorem C3_amended_one_connection (st : GState) (o : Options) (token : String)
    (srv : PeerServer) (h0 : 0 ≤ o.serverId)
    (h1 : o.servers.get? o.serverId.toNat = some srv) :
    Client.startClientWithAppServer st o token =
      .ok { st with
            workObjectsCount := st.workObjectsCount + 1,
            ids := setAssocNat st.ids o.serverId.toNat token,
            connects := st.connects ++ [(o.serverId.toNat, srv.host, srv.port)],
            listens := st.listens ++ [(o.apiServer.host, o.apiServer.port)] } := by
  simp only [Client.startClientWithAppServer, if_pos h0, h1]
  rfl

/-- C3 witness: the amended statement at the counterexample's
configuration. -/
theorem C3_amended_one_connection_witness :
    Client.startClientWithAppServer initialState
      ⟨0, [⟨0, "h0", 4440⟩, ⟨1, "h1", 4441⟩], ⟨"api", 8080⟩⟩ "0xT0" =
      .ok { initialState with
            workObjectsCount := 1,
            ids := [(0, "0xT0")],
            connects := [(0, "h0", 4440)],
            listens := [("api", 8080)] } :=
  C3_amended_one_connection initialState
    ⟨0, [⟨0, "h0", 4440⟩, ⟨1, "h1", 4441⟩], ⟨"api", 8080⟩⟩ "0xT0"
    ⟨0, "h0", 4440⟩ (by decide) (by rfl)

/-- C4: a broadcast via `sendVirtualBlocks` (whose payload is always the
one `prepareToSendBlocks` builds: `mkSubmission`) over the N tracked
connections issues exactly N writes, one per connection; each write is
the serialization of the payload stamped with that connection's identity
token as `miner`; each carries `txs` equal to the whole pending queue in
submission order; the `params` and `virtualBlocks` are the same in every
write, and distinct tokens give pairwise distinct `miner` stamps (the
payloads agree on every field but `miner`). -/
theorem C4_per_peer_stamping (st : GState) (b r0 r1 r2 : JSVal)
    (hnodup : (st.ids.map Prod.snd).Nodup) :
    ∃ st', Client.sendVirtualBlocks st (mkSubmission b r0 r1 r2) = .ok st' ∧
      st'.writes = st.writes ++ st.ids.map
        (fun kt => (kt.1, stratumSerialize (stampedSubmission b r0 r1 r2 st.pending kt.2))) ∧
      st'.writes.length = st.writes.length + st.ids.length ∧
      (∀ kt ∈ st.ids,
        (stampedSubmission b r0 r1 r2 st.pending kt.2).getF "miner" = .jstr kt.2 ∧
        (stampedSubmission b r0 r1 r2 st.pending kt.2).getF "txs" = .jarr st.pending ∧
        (stampedSubmission b r0 r1 r2 st.pending kt.2).getF "params" = .jarr [r0, r1, r2] ∧
        (stampedSubmission b r0 r1 r2 st.pending kt.2).getF "virtualBlocks" = b) ∧
      (st.ids.map
        (fun kt => (stampedSubmission b r0 r1 r2 st.pending kt.2).getF "miner")).Nodup ∧
      (∀ t1 t2 : String, dropField (stampedSubmission b r0 r1 r2 st.pending t1) "miner" =
        dropField (stampedSubmission b r0 r1 r2 st.pending t2) "miner") := by
  refine ⟨_, send_spec st b r0 r1 r2, rfl, ?_, ?_, ?_, fun t1 t2 => rfl⟩
  · simp [List.length_append, List.length_map]
  · exact fun kt _ => ⟨rfl, rfl, rfl, rfl⟩
  · have hmap : (st.ids.map
        (fun kt => (stampedSubmission b r0 r1 r2 st.pending kt.2).getF "miner")) =
        (st.ids.map Prod.snd).map JSVal.jstr := by
      rw [List.map_map]
      rfl
    rw [hmap]
    exact hnodup.map (fun a b hab => by injection hab)

/-- C4 witness: a broadcast over two tracked connections with distinct
tokens. -/
theorem C4_per_peer_stamping_witness :
    ∃ st', Client.sendVirtualBlocks
        { initialState with ids := [(0, "0xT0"), (1, "0xT1")], pending := [.jstr "b1"] }
        (mkSubmission (.jarr [.jstr "b1"]) (.jstr "0xAA") (.jstr "0xBB") (.jstr "0xCC")) =
        .ok st' ∧
      st'.writes = [] ++ [(0, "0xT0"), (1, "0xT1")].map
        (fun kt => (kt.1, stratumSerialize (stampedSubmission (.jarr [.jstr "b1"])
          (.jstr "0xAA") (.jstr "0xBB") (.jstr "0xCC") [.jstr "b1"] kt.2))) ∧
      st'.writes.length = ([] : List (Nat × String)).length + [(0, "0xT0"), (1, "0xT1")].length ∧
      (∀ kt ∈ [((0 : Nat), "0xT0"), (1, "0xT1")],
        (stampedSubmission (.jarr [.jstr "b1"]) (.jstr "0xAA") (.jstr "0xBB") (.jstr "0xCC")
          [.jstr "b1"] kt.2).getF "miner" = .jstr kt.2 ∧
        (stampedSubmission (.jarr [.jstr "b1"]) (.jstr "0xAA") (.jstr "0xBB") (.jstr "0xCC")
          [.jstr "b1"] kt.2).getF "txs" = .jarr [.jstr "b1"] ∧
        (stampedSubmission (.jarr [.jstr "b1"]) (.jstr "0xAA") (.jstr "0xBB") (.jstr "0xCC")
          [.jstr "b1"] kt.2).getF "params" = .jarr [.jstr "0xAA", .jstr "0xBB", .jstr "0xCC"] ∧
        (stampedSubmission (.jarr [.jstr "b1"]) (.jstr "0xAA") (.jstr "0xBB") (.jstr "0xCC")
          [.jstr "b1"] kt.2).getF "virtualBlocks" = .jarr [.jstr "b1"]) ∧
      ([((0 : Nat), "0xT0"), (1, "0xT1")].map
        (fun kt => (stampedSubmission (.jarr [.jstr "b1"]) (.jstr "0xAA") (.jstr "0xBB")
          (.jstr "0xCC") [.jstr "b1"] kt.2).getF "miner")).Nodup ∧
      (∀ t1 t2 : String, dropField (stampedSubmission (.jarr [.jstr "b1"]) (.jstr "0xAA")
          (.jstr "0xBB") (.jstr "0xCC") [.jstr "b1"] t1) "miner" =
        dropField (stampedSubmission (.jarr [.jstr "b1"]) (.jstr "0xAA") (.jstr "0xBB")
          (.jstr "0xCC") [.jstr "b1"] t2) "miner") :=
  C4_per_peer_stamping
    { initialState with ids := [(0, "0xT0"), (1, "0xT1")], pending := [.jstr "b1"] }
    (.jarr [.jstr "b1"]) (.jstr "0xAA") (.jstr "0xBB") (.jstr "0xCC") (by decide)

/-- C5: immediately after every `sendVirtualBlocks` broadcast the
pending queue is empty — the clear is unconditional, for every state and
payload of the reachable `mkSubmission` shape — and a subsequent
broadcast issued with no new batches submitted writes payloads whose
`txs` is the empty array to every connection. -/
theorem C5_post_broadcast_clear (st : GState) (b r0 r1 r2 b2 s0 s1 s2 : JSVal) :
    ∃ st₁, Client.sendVirtualBlocks st (mkSubmission b r0 r1 r2) = .ok st₁ ∧
      st₁.pending = [] ∧
      ∃ st₂, Client.sendVirtualBlocks st₁ (mkSubmission b2 s0 s1 s2) = .ok st₂ ∧
        st₂.writes = st₁.writes ++ st₁.ids.map
          (fun kt => (kt.1, stratumSerialize (stampedSubmission b2 s0 s1 s2 [] kt.2))) ∧
        ∀ tok : String, (stampedSubmission b2 s0 s1 s2 [] tok).getF "txs" = .jarr [] := by
  refine ⟨_, send_spec st b r0 r1 r2, rfl, _, send_spec _ b2 s0 s1 s2, rfl, fun tok => rfl⟩

/-- C6: `submitVirtualBlocks(blocks, result)` is a no-op when `blocks`
is `undefined`; when `blocks` is a non-empty sequence it appends that
batch as one entry to the pending queue and immediately runs the
broadcast preparation, whose payload carries method `eth_submitWork` and
`params` built from the originating result's header hash, seed hash and
share target. -/
theorem C6_submit_virtual_blocks (st : GState) (result : JSVal) (bs : List JSVal)
    (r0 r1 r2 : JSVal) :
    Client.submitVirtualBlocks st .undefined result = .ok st ∧
    (bs ≠ [] → result = .jarr [r0, r1, r2] →
      Client.submitVirtualBlocks st (.jarr bs) result =
        Client.sendVirtualBlocks { st with pending := st.pending ++ [.jarr bs] }
          (mkSubmission (.jarr bs) r0 r1 r2) ∧
      (mkSubmission (.jarr bs) r0 r1 r2).getF "method" = .jstr "eth_submitWork" ∧
      (mkSubmission (.jarr bs) r0 r1 r2).getF "params" = .jarr [r0, r1, r2]) := by
  refine ⟨rfl, fun hbs hres => ⟨?_, rfl, rfl⟩⟩
  subst hres
  have hlen : lengthGtZero (.jarr bs) = true := by
    simp [lengthGtZero, List.length_pos, hbs]
  show (if (JSVal.jarr bs).typeofObject && lengthGtZero (.jarr bs) then
        Client.prepareToSendBlocks { st with pending := st.pending ++ [.jarr bs] }
          (.jarr bs) (.jarr [r0, r1, r2])
      else .ok st) = _
  rw [hlen]
  rfl

/-- C6 witness: a concrete non-empty batch with the example result
triple, and the `undefined` no-op, at the initial state. -/
theorem C6_submit_virtual_blocks_witness :
    Client.submitVirtualBlocks initialState (.jarr [.jstr "b1"])
        (.jarr [.jstr "0xAA", .jstr "0xBB", .jstr "0xCC"]) =
      Client.sendVirtualBlocks { initialState with pending := [.jarr [.jstr "b1"]] }
        (mkSubmission (.jarr [.jstr "b1"]) (.jstr "0xAA") (.jstr "0xBB") (.jstr "0xCC")) ∧
    Client.submitVirtualBlocks initialState .undefined (.jarr []) = .ok initialState :=
  ⟨((C6_submit_virtual_blocks initialState
      (.jarr [.jstr "0xAA", .jstr "0xBB", .jstr "0xCC"]) [.jstr "b1"]
      (.jstr "0xAA") (.jstr "0xBB") (.jstr "0xCC")).2 (List.cons_ne_nil _ _) rfl).1,
   (C6_submit_virtual_blocks initialState (.jarr []) [] .undefined .undefined .undefined).1⟩
